import Mathlib

/-!
Verification development for the aioinject dependency-injection library.

The repository source available here is `markers.py` (the `Impl` marker),
`ext/strawberry.py` (the Strawberry extension installing the ambient
container), and the container test suite.  The core engine (`Container`,
`Registry`, resolver, scopes) is exercised by the tests but its module is
not among the provided files, so those parts are modelled from the
specification, with the test suite pinning the concrete behaviour
(error messages, multi-binding registration, singleton lifecycle).

Type keys and implementation identities are embedded as natural numbers:
the engine treats both as opaque identity tokens compared for equality.
-/

/-- A type key: the opaque identifier a provider declares it produces. -/
abbrev TypeKey := Nat

/-- An implementation identity token (the factory / class a provider wraps). -/
abbrev ImplKey := Nat

/-- Modelled from the spec: a Provider declares the type it produces, the
identity of its implementation, and the ordered list of type keys of its
dependencies (inferred from the construction strategy's declared inputs). -/
structure Provider where
  type_ : TypeKey
  implementation : ImplKey
  dependencies : List TypeKey
deriving DecidableEq, Repr

/-- Modelled from the spec: the error taxonomy of the engine
(`ProviderNotFoundError`, `DuplicateRegistrationError`,
`CyclicDependencyError`), each naming the offending type key. -/
inductive DIError where
  | providerNotFound (t : TypeKey)
  | duplicateRegistration (t : TypeKey)
  | cyclicDependency (t : TypeKey)
deriving DecidableEq, Repr

/-- Modelled from the spec: the Registry is an insertion-ordered mapping
from type key to the ordered list of providers registered for it, embedded
as an association list (mirroring a Python dict of lists). -/
abbrev Registry := List (TypeKey × List Provider)

/-- Modelled from the spec: look up the provider list for a type key;
a type with no entry has the empty list. -/
def lookupList (r : Registry) (t : TypeKey) : List Provider :=
  match r with
  | [] => []
  | (k, ps) :: rest => if k = t then ps else lookupList rest t

/-- Modelled from the spec: append a provider to its type's ordered list,
creating the entry at the end of the mapping if the type is new
(dict insertion order). -/
def appendProvider (r : Registry) (p : Provider) : Registry :=
  match r with
  | [] => [(p.type_, [p])]
  | (k, ps) :: rest =>
      if k = p.type_ then (k, ps ++ [p]) :: rest
      else (k, ps) :: appendProvider rest p

/-- Modelled from the spec and pinned by the test suite: whether the
registry already holds a provider for the same type with the same
implementation identity. -/
def hasSameImpl (r : Registry) (p : Provider) : Bool :=
  (lookupList r p.type_).any fun q => q.implementation = p.implementation

/-- Modelled from the spec and pinned by the test suite: `register` for a
single provider fails when a provider for the same type with the same
implementation is already registered (message `Provider for type ... with
same implementation already registered`); otherwise it appends the provider
to that type's list (multi-binding). -/
def registerOne (r : Registry) (p : Provider) : Except DIError Registry :=
  if hasSameImpl r p then .error (.duplicateRegistration p.type_)
  else .ok (appendProvider r p)

/-- Modelled from the spec: `register(*providers)` registers each provider
of the input sequence in order, stopping at the first failure. -/
def registerMany (r : Registry) (ps : List Provider) : Except DIError Registry :=
  match ps with
  | [] => .ok r
  | p :: rest =>
      match registerOne r p with
      | .error e => .error e
      | .ok r2 => registerMany r2 rest

/-- Modelled from the spec: `try_register` for a single provider silently
skips a provider whose `(type, implementation identity)` pair is already
present, leaving the registry unchanged; otherwise it registers it. -/
def tryRegisterOne (r : Registry) (p : Provider) : Registry :=
  if hasSameImpl r p then r else appendProvider r p

/-- Modelled from the spec and pinned by the test suite: `get_provider`
returns the registered provider for a type (the first of its list when
several are registered), and fails with `ProviderNotFoundError` naming the
requested type (`Providers for type ... not found`) when none exists. -/
def get_provider (r : Registry) (t : TypeKey) : Except DIError Provider :=
  match lookupList r t with
  | [] => .error (.providerNotFound t)
  | p :: _ => .ok p

/-- Modelled from the spec: a stateful view of `get_provider` as a Python
method call, returning the result together with the registry it leaves
behind: the lookup reads a plain dict entry and never mutates it. -/
def get_provider_s (r : Registry) (t : TypeKey) :
    (Except DIError Provider) × Registry :=
  (get_provider r t, r)

/-- Modelled from the spec: `get_providers` returns the full ordered list
of providers for a type; the empty list is a valid result. -/
def get_providers (r : Registry) (t : TypeKey) : List Provider :=
  lookupList r t

/-- A constructed value: the implementation applied to the values resolved
for its dependencies, kept symbolic so distinct construction histories are
distinguishable. -/
inductive Value where
  | mk (impl : ImplKey) (args : List Value)

/-- The type keys that have an entry in the registry. -/
def regKeys (r : Registry) : List TypeKey :=
  r.map Prod.fst

/-- Number of registry keys not yet on the in-progress stack: the
termination measure of the resolver. -/
def freshCount (r : Registry) (stack : List TypeKey) : Nat :=
  ((regKeys r).filter fun k => decide (k ∉ stack)).length

theorem lookupList_ne_nil_mem {r : Registry} {t : TypeKey}
    (h : lookupList r t ≠ []) : t ∈ regKeys r := by
  induction r with
  | nil => simp [lookupList] at h
  | cons hd rest ih =>
      by_cases hk : hd.1 = t
      · simp [regKeys, hk]
      · refine List.mem_cons_of_mem _ ?_
        apply ih
        simpa [lookupList, hk] using h

theorem length_filter_mono {p q : TypeKey → Bool} (l : List TypeKey)
    (h : ∀ k, q k = true → p k = true) :
    (l.filter q).length ≤ (l.filter p).length := by
  induction l with
  | nil => simp
  | cons x xs ih =>
      by_cases hq : q x = true
      · have hp := h x hq
        simp [List.filter, hq, hp, Nat.succ_le_succ ih]
      · by_cases hp : p x = true
        · simp [List.filter, hq, hp]
          exact Nat.le_succ_of_le ih
        · simp [List.filter, hq, hp, ih]

theorem length_filter_lt_of_mem {p q : TypeKey → Bool} (l : List TypeKey)
    (t : TypeKey) (hmem : t ∈ l)
    (himp : ∀ k, q k = true → p k = true)
    (hqt : q t = false) (hpt : p t = true) :
    (l.filter q).length < (l.filter p).length := by
  induction l with
  | nil => simp at hmem
  | cons x xs ih =>
      rcases List.mem_cons.mp hmem with hx | hx
      · subst hx
        simp only [List.filter_cons, hqt, hpt]
        simp only [Bool.false_eq_true, if_false, if_true, List.length_cons]
        exact Nat.lt_succ_of_le (length_filter_mono xs himp)
      · by_cases hq2 : q x = true
        · have hp2 := himp x hq2
          simp only [List.filter_cons, hq2, hp2, if_true, List.length_cons]
          exact Nat.succ_lt_succ (ih hx)
        · have hq2f : q x = false := Bool.eq_false_iff.mpr hq2
          by_cases hp2 : p x = true
          · simp only [List.filter_cons, hq2f, hp2]
            simp only [Bool.false_eq_true, if_false, if_true, List.length_cons]
            exact Nat.lt_succ_of_le (Nat.le_of_lt (ih hx))
          · have hp2f : p x = false := Bool.eq_false_iff.mpr hp2
            simp only [List.filter_cons, hq2f, hp2f]
            simp only [Bool.false_eq_true, if_false]
            exact ih hx

theorem freshCount_cons_lt {r : Registry} {stack : List TypeKey}
    {t : TypeKey} (hmem : t ∈ regKeys r) (hnot : t ∉ stack) :
    freshCount r (t :: stack) < freshCount r stack := by
  refine length_filter_lt_of_mem (regKeys r) t hmem ?_ ?_ ?_
  · intro k hk
    simp at hk ⊢
    exact hk.2
  · simp
  · simpa using hnot

mutual

/-- Modelled from the spec: the recursive resolver.  It tracks the set of
type keys currently in progress for this resolution call chain; a request
for a key already in progress fails with `CyclicDependencyError` naming it.
Otherwise the provider is selected via the registry (failing with
`ProviderNotFoundError` when none is registered), its declared dependencies
are resolved recursively in order, and the construction strategy is invoked
on the resolved dependency values. -/
def resolveAux (r : Registry) (stack : List TypeKey) (t : TypeKey) :
    Except DIError Value :=
  if h : t ∈ stack then .error (.cyclicDependency t)
  else
    match hp : lookupList r t with
    | [] => .error (.providerNotFound t)
    | p :: _ =>
        match resolveDeps r (t :: stack) p.dependencies with
        | .error e => .error e
        | .ok vs => .ok (.mk p.implementation vs)
termination_by (freshCount r stack, 0)
decreasing_by
  exact Prod.Lex.left _ _
    (freshCount_cons_lt (lookupList_ne_nil_mem (by simp [hp])) h)

/-- Modelled from the spec: resolve a list of dependency keys in their
declared order, propagating the first failure. -/
def resolveDeps (r : Registry) (stack : List TypeKey) (ts : List TypeKey) :
    Except DIError (List Value) :=
  match ts with
  | [] => .ok []
  | t :: rest =>
      match resolveAux r stack t with
      | .error e => .error e
      | .ok v =>
          match resolveDeps r stack rest with
          | .error e => .error e
          | .ok vs => .ok (v :: vs)
termination_by (freshCount r stack, ts.length + 1)
decreasing_by
  · exact Prod.Lex.right _ (Nat.zero_lt_succ _)
  · exact Prod.Lex.right _ (Nat.succ_lt_succ (Nat.lt_succ_self _))

end

/-- Modelled from the spec: `resolve(type)` starts a resolution call chain
with an empty in-progress set. -/
def resolve (r : Registry) (t : TypeKey) : Except DIError Value :=
  resolveAux r [] t

/-- Modelled from the spec: a scoped resource owned by a Scope — its
identity together with whether its finalizer raises on teardown. -/
structure Resource where
  rid : Nat
  failsOnClose : Bool
deriving DecidableEq, Repr

/-- Modelled from the spec: a Scope's resource stack; acquisition pushes
the newly opened resource on top. -/
def openResource (stack : List Resource) (res : Resource) : List Resource :=
  res :: stack

/-- Open the resources of `l` in order, starting from an empty Scope. -/
def openAll (l : List Resource) : List Resource :=
  l.foldl openResource []

/-- Modelled from the spec: closing a Scope pops and finalizes resources
from the top of the stack, attempting every pending teardown even when an
earlier finalizer raised; it returns the ordered list of attempted
finalizations together with the identities whose finalizers raised
(re-raised only after all attempts). -/
def closeScope (stack : List Resource) : List Nat × List Nat :=
  match stack with
  | [] => ([], [])
  | res :: rest =>
      let tail := closeScope rest
      (res.rid :: tail.1,
        if res.failsOnClose then res.rid :: tail.2 else tail.2)

/-- The lifetime tags a provider may declare. -/
inductive Lifetime where
  | transient
  | scoped
  | singleton
deriving DecidableEq, Repr

/-- Modelled from the spec: a generator-based provider for the lifecycle
model — the type key it declares, the value its generator yields before
suspending, and its lifetime tag. -/
structure LProvider where
  type_ : TypeKey
  yieldValue : Nat
  lifetime : Lifetime
deriving DecidableEq, Repr

/-- Modelled from the spec: a Scope of the lifecycle model: the cache of
values it owns and the stack of pending finalizers it must run on close. -/
structure LScope where
  cache : List (TypeKey × Nat)
  finalizers : List TypeKey
deriving DecidableEq, Repr

/-- A freshly opened Scope: empty cache, no pending finalizers. -/
def emptyScope : LScope := ⟨[], []⟩

/-- Modelled from the spec: a Container owns a root Scope reserved for
Singleton-lifetime values. -/
structure LContainer where
  root : LScope
deriving DecidableEq, Repr

/-- A freshly entered Container with an empty root Scope. -/
def emptyContainer : LContainer := ⟨emptyScope⟩

/-- Look up a cached value for a type key. -/
def cacheLookup (cache : List (TypeKey × Nat)) (t : TypeKey) : Option Nat :=
  match cache with
  | [] => none
  | (k, v) :: rest => if k = t then some v else cacheLookup rest t

/-- Modelled from the spec: resolving a generator provider inside a child
Scope.  A Singleton hit reads the Container-level cache; on a miss the
generator is entered, its finalizer is pushed on the root Scope's stack and
the value is cached at the Container, leaving the child Scope untouched.
A Scoped provider caches and registers its finalizer in the child Scope;
a Transient one only registers its finalizer there. -/
def resolveIn (p : LProvider) (c : LContainer) (child : LScope) :
    Nat × LContainer × LScope :=
  match p.lifetime with
  | .singleton =>
      match cacheLookup c.root.cache p.type_ with
      | some v => (v, c, child)
      | none =>
          (p.yieldValue,
            ⟨⟨(p.type_, p.yieldValue) :: c.root.cache,
              p.type_ :: c.root.finalizers⟩⟩, child)
  | .scoped =>
      match cacheLookup child.cache p.type_ with
      | some v => (v, c, child)
      | none =>
          (p.yieldValue, c,
            ⟨(p.type_, p.yieldValue) :: child.cache,
              p.type_ :: child.finalizers⟩)
  | .transient =>
      (p.yieldValue, c, ⟨child.cache, p.type_ :: child.finalizers⟩)

/-- Modelled from the spec scenario: one child session opens a fresh child
Scope from the Container, resolves the provider once, and closes the child
Scope.  It returns the resolved value, the finalizers the child Scope runs
as it closes, and the Container afterwards. -/
def childSession (p : LProvider) (c : LContainer) :
    Nat × List TypeKey × LContainer :=
  let step := resolveIn p c emptyScope
  (step.1, step.2.2.finalizers, step.2.1)

/-- Modelled from the spec scenario: run `n` sequential child sessions,
collecting every resolved value and every finalizer run by a closing child
Scope. -/
def runSessions (p : LProvider) (c : LContainer) :
    Nat → List Nat × List TypeKey × LContainer
  | 0 => ([], [], c)
  | n + 1 =>
      let s := childSession p c
      let rest := runSessions p s.2.2 n
      (s.1 :: rest.1, s.2.1 ++ rest.2.1, rest.2.2)

/-- Modelled from the spec: closing the Container tears down its root
Scope, running every pending Singleton finalizer. -/
def closeContainer (c : LContainer) : List TypeKey :=
  c.root.finalizers

/-- A reference to a Container held by the ambient variable; opaque
identity is all the extension needs. -/
abbrev ContainerRef := Nat

/-- The ambient current-container variable: unset or holding a Container. -/
abbrev AmbientVar := Option ContainerRef

/-- Modelled from the spec: the token a call-stack-scoped variable returns
on `set`, recording the value to restore on `reset`. -/
structure CtxToken where
  old : AmbientVar
deriving DecidableEq, Repr

/-- Modelled from the spec: setting the ambient variable stores the new
value and returns a token holding the previous one. -/
def varSet (s : AmbientVar) (c : ContainerRef) : CtxToken × AmbientVar :=
  (⟨s⟩, some c)

/-- Modelled from the spec: resetting with a token restores the value the
variable held when the token was issued. -/
def varReset (tok : CtxToken) (_s : AmbientVar) : AmbientVar :=
  tok.old

/-- The extension class produced by `make_container_ext`: it closes over
the Container passed in. -/
structure ContainerExtension where
  container : ContainerRef
deriving DecidableEq, Repr

/-- Translated from `ext/strawberry.py`: `make_container_ext(container)`
returns an extension bound to that container. -/
def make_container_ext (c : ContainerRef) : ContainerExtension :=
  ⟨c⟩

/-- Translated from `ext/strawberry.py`: `on_request_start` sets the
ambient variable to the extension's container, keeping the token. -/
def ContainerExtension.on_request_start (e : ContainerExtension)
    (s : AmbientVar) : CtxToken × AmbientVar :=
  varSet s e.container

/-- Translated from `ext/strawberry.py`: `on_request_end` resets the
ambient variable with the token saved by `on_request_start`. -/
def ContainerExtension.on_request_end (_e : ContainerExtension)
    (tok : CtxToken) (s : AmbientVar) : AmbientVar :=
  varReset tok s

/-- Translated from `markers.py`: the `Impl` marker stores the type it was
constructed with in its `type` attribute. -/
structure Impl where
  type : TypeKey
deriving DecidableEq, Repr

/-- Translated from `markers.py`: `Impl.__class_getitem__(item)` returns
`cls(item)`, i.e. a fresh `Impl` whose `type` field is `item`. -/
def class_getitem (item : TypeKey) : Impl :=
  Impl.mk item

theorem hasSameImpl_true_of_mem {r : Registry} {p q : Provider}
    (hq : q ∈ lookupList r p.type_)
    (him : q.implementation = p.implementation) :
    hasSameImpl r p = true := by
  unfold hasSameImpl
  exact List.any_eq_true.mpr ⟨q, hq, by simp [him]⟩

theorem hasSameImpl_false_of_fresh {r : Registry} {p : Provider}
    (h : ∀ q ∈ lookupList r p.type_, q.implementation ≠ p.implementation) :
    hasSameImpl r p = false := by
  unfold hasSameImpl
  rw [List.any_eq_false]
  intro q hq
  simpa using h q hq

theorem lookupList_appendProvider (r : Registry) (p : Provider)
    (t : TypeKey) :
    lookupList (appendProvider r p) t =
      if p.type_ = t then lookupList r t ++ [p] else lookupList r t := by
  induction r with
  | nil =>
      by_cases h : p.type_ = t <;> simp [appendProvider, lookupList, h]
  | cons hd rest ih =>
      obtain ⟨k, ps⟩ := hd
      by_cases hk : k = p.type_
      · by_cases ht : k = t
        · have hpt : p.type_ = t := hk ▸ ht
          simp [appendProvider, lookupList, hk, ht, hpt]
        · have hpt : p.type_ ≠ t := fun h2 => ht (hk.trans h2)
          simp [appendProvider, lookupList, hk, ht, hpt]
      · by_cases ht : k = t
        · have hpt : p.type_ ≠ t := fun h2 => hk (ht.trans h2.symm)
          have htp : ¬(t = p.type_) := fun h2 => hk (ht.trans h2)
          simp [appendProvider, lookupList, hk, ht, hpt, htp]
        · simp [appendProvider, lookupList, hk, ht, ih]

theorem resolveAux_mem_stack (r : Registry) (stack : List TypeKey)
    (t : TypeKey) (h : t ∈ stack) :
    resolveAux r stack t = .error (.cyclicDependency t) := by
  rw [resolveAux]
  simp [h]

/-- A provider is fresh for a registry when no provider of its type shares
its implementation identity. -/
def freshFor (r : Registry) (p : Provider) : Prop :=
  ∀ q ∈ lookupList r p.type_, q.implementation ≠ p.implementation

theorem freshFor_appendProvider {r : Registry} {p p2 : Provider}
    (hfresh : freshFor r p2)
    (hdiff : p.type_ = p2.type_ → p.implementation ≠ p2.implementation) :
    freshFor (appendProvider r p) p2 := by
  intro q hq him
  rw [lookupList_appendProvider] at hq
  by_cases hty : p.type_ = p2.type_
  · rw [if_pos hty] at hq
    rcases List.mem_append.mp hq with h1 | h2
    · exact hfresh q h1 him
    · have hqp : q = p := by simpa using h2
      exact hdiff hty (hqp ▸ him)
  · rw [if_neg hty] at hq
    exact hfresh q hq him

theorem registerMany_eq_foldl (ps : List Provider) (r : Registry)
    (hr : ∀ p ∈ ps, freshFor r p)
    (hps : ps.Pairwise fun a b =>
      a.type_ = b.type_ → a.implementation ≠ b.implementation) :
    registerMany r ps = .ok (ps.foldl appendProvider r) := by
  induction ps generalizing r with
  | nil => simp [registerMany]
  | cons p rest ih =>
      have hfresh : freshFor r p := hr p (List.mem_cons_self p rest)
      have hno : hasSameImpl r p = false := hasSameImpl_false_of_fresh hfresh
      have hpair := List.pairwise_cons.mp hps
      simp only [registerMany, registerOne, hno, Bool.false_eq_true,
        if_false, List.foldl_cons]
      apply ih
      · intro p2 hp2
        exact freshFor_appendProvider (hr p2 (List.mem_cons_of_mem p hp2))
          (hpair.1 p2 hp2)
      · exact hpair.2

theorem lookupList_foldl_appendProvider (ps : List Provider) (r : Registry)
    (t : TypeKey) :
    lookupList (ps.foldl appendProvider r) t =
      lookupList r t ++ (ps.filter fun p => decide (p.type_ = t)) := by
  induction ps generalizing r with
  | nil => simp
  | cons p rest ih =>
      simp only [List.foldl_cons, ih, lookupList_appendProvider,
        List.filter_cons]
      by_cases ht : p.type_ = t
      · simp [ht]
      · simp [ht]

theorem foldl_openResource (l : List Resource) (s : List Resource) :
    l.foldl openResource s = l.reverse ++ s := by
  induction l generalizing s with
  | nil => simp
  | cons x xs ih =>
      simp [openResource, ih, List.append_assoc]

theorem closeScope_attempted (stack : List Resource) :
    (closeScope stack).1 = stack.map Resource.rid := by
  induction stack with
  | nil => rfl
  | cons res rest ih => simp [closeScope, ih]

theorem closeScope_raised (stack : List Resource) :
    (closeScope stack).2 =
      (stack.filter fun res => res.failsOnClose).map Resource.rid := by
  induction stack with
  | nil => rfl
  | cons res rest ih =>
      by_cases hf : res.failsOnClose <;>
        simp [closeScope, ih, List.filter_cons, hf]

theorem childSession_cached {p : LProvider} {c : LContainer}
    (hlife : p.lifetime = .singleton)
    (h : cacheLookup c.root.cache p.type_ = some p.yieldValue) :
    childSession p c = (p.yieldValue, [], c) := by
  unfold childSession resolveIn
  rw [hlife, h]
  rfl

theorem runSessions_cached {p : LProvider} {c : LContainer}
    (hlife : p.lifetime = .singleton)
    (h : cacheLookup c.root.cache p.type_ = some p.yieldValue) (n : Nat) :
    runSessions p c n = (List.replicate n p.yieldValue, [], c) := by
  induction n with
  | zero => simp [runSessions]
  | succ m ih =>
      simp [runSessions, childSession_cached hlife h, ih,
        List.replicate_succ]

/-- C2: for every type with zero registered providers, `get_provider`
fails with `ProviderNotFoundError` naming the requested type, `resolve`
fails the same way, and the failed lookup leaves the registry unchanged. -/
theorem missing_provider_fails (r : Registry) (t : TypeKey)
    (h : lookupList r t = []) :
    get_provider r t = .error (.providerNotFound t)
    ∧ resolve r t = .error (.providerNotFound t)
    ∧ (get_provider_s r t).2 = r := by
  refine ⟨?_, ?_, rfl⟩
  · unfold get_provider
    rw [h]
  · unfold resolve
    rw [resolveAux]
    rw [dif_neg (List.not_mem_nil t)]
    split
    · rfl
    · rename_i p tail heq
      rw [h] at heq
      exact List.noConfusion heq

/-- Witness for C2: the empty registry holds no provider for key 0. -/
theorem missing_provider_fails_witness :
    get_provider [] 0 = .error (.providerNotFound 0)
    ∧ resolve [] 0 = .error (.providerNotFound 0)
    ∧ (get_provider_s [] 0).2 = [] :=
  missing_provider_fails [] 0 rfl

/-- C3: registering a provider whose `(type, implementation)` pair equals
that of a provider already present fails with the duplicate-registration
error, for every provider already present in the registry. -/
theorem register_same_pair_fails (r : Registry) (p q : Provider)
    (hq : q ∈ lookupList r p.type_)
    (him : q.implementation = p.implementation) :
    registerOne r p = .error (.duplicateRegistration p.type_) := by
  unfold registerOne
  rw [hasSameImpl_true_of_mem hq him]
  simp

/-- Witness for C3: re-registering the provider for key 0 with
implementation 5 fails. -/
theorem register_same_pair_fails_witness :
    registerOne [(0, [Provider.mk 0 5 []])] (Provider.mk 0 5 [])
      = .error (.duplicateRegistration 0) :=
  register_same_pair_fails [(0, [Provider.mk 0 5 []])]
    (Provider.mk 0 5 []) (Provider.mk 0 5 []) (by decide) rfl

/-- C4: `try_register` is idempotent: when a provider with an equal
`(type, implementation identity)` pair is already registered, it silently
skips the provider and returns the registry mapping exactly unchanged. -/
theorem try_register_idempotent (r : Registry) (p q : Provider)
    (hq : q ∈ lookupList r p.type_)
    (him : q.implementation = p.implementation) :
    tryRegisterOne r p = r := by
  unfold tryRegisterOne
  rw [hasSameImpl_true_of_mem hq him]
  simp

/-- Witness for C4: trying to re-register the provider for key 0 with
implementation 7 leaves the registry unchanged, mirroring the
`test_can_try_register` scenario. -/
theorem try_register_idempotent_witness :
    tryRegisterOne [(0, [Provider.mk 0 7 []])] (Provider.mk 0 7 [])
      = [(0, [Provider.mk 0 7 []])] :=
  try_register_idempotent [(0, [Provider.mk 0 7 []])]
    (Provider.mk 0 7 []) (Provider.mk 0 7 []) (by decide) rfl

/-- C9: the extension built by `make_container_ext` installs exactly the
container it was built from when a request starts, and restores the prior
value of the ambient variable when the request ends; nested start/end
pairs restore correctly in turn. -/
theorem ambient_container_roundtrip (c c2 : ContainerRef) (v : AmbientVar) :
    ((make_container_ext c).on_request_start v).2 = some c
    ∧ (make_container_ext c).on_request_end
        ((make_container_ext c).on_request_start v).1
        ((make_container_ext c).on_request_start v).2 = v
    ∧ (make_container_ext c2).on_request_end
        ((make_container_ext c2).on_request_start
          ((make_container_ext c).on_request_start v).2).1
        ((make_container_ext c2).on_request_start
          ((make_container_ext c).on_request_start v).2).2 = some c
    ∧ (make_container_ext c).on_request_end
        ((make_container_ext c).on_request_start v).1
        ((make_container_ext c2).on_request_end
          ((make_container_ext c2).on_request_start
            ((make_container_ext c).on_request_start v).2).1
          ((make_container_ext c2).on_request_start
            ((make_container_ext c).on_request_start v).2).2) = v :=
  ⟨rfl, rfl, rfl, rfl⟩

/-- C10: for every type argument, the class-subscription form constructs
an `Impl` instance whose `type` field is exactly that argument, and
nothing else. -/
theorem impl_class_getitem (T : TypeKey) :
    (class_getitem T).type = T ∧ class_getitem T = Impl.mk T :=
  ⟨rfl, rfl⟩

/-- C5 counterexample: registering a second provider for the same type
with a different implementation does not raise: both registrations
succeed and both providers are retrievable, exactly the
`test_can_retrieve_multiple_providers` scenario (two factories for `int`). -/
theorem register_second_impl_counterexample :
    registerMany [] [Provider.mk 0 1 [], Provider.mk 0 2 []]
      = .ok [(0, [Provider.mk 0 1 [], Provider.mk 0 2 []])]
    ∧ (get_providers
        [(0, [Provider.mk 0 1 [], Provider.mk 0 2 []])] 0).length = 2 :=
  ⟨rfl, rfl⟩

/-- C5 amended: registering a second provider for an already-registered
type succeeds whenever its implementation differs from every provider
registered for that type — it is appended to that type's ordered list
(multi-binding); only an equal implementation makes registration fail. -/
theorem register_different_impl_appends (r : Registry) (p : Provider)
    (h : ∀ q ∈ lookupList r p.type_, q.implementation ≠ p.implementation) :
    registerOne r p = .ok (appendProvider r p)
    ∧ get_providers (appendProvider r p) p.type_
        = get_providers r p.type_ ++ [p] := by
  constructor
  · unfold registerOne
    rw [hasSameImpl_false_of_fresh h]
    simp
  · unfold get_providers
    rw [lookupList_appendProvider]
    simp

/-- Witness for the amended C5: a second `int` provider with a different
factory is appended next to the first. -/
theorem register_different_impl_appends_witness :
    registerOne [(0, [Provider.mk 0 1 []])] (Provider.mk 0 2 [])
      = .ok [(0, [Provider.mk 0 1 [], Provider.mk 0 2 []])]
    ∧ get_providers [(0, [Provider.mk 0 1 [], Provider.mk 0 2 []])] 0
        = get_providers [(0, [Provider.mk 0 1 []])] 0
            ++ [Provider.mk 0 2 []] :=
  register_different_impl_appends [(0, [Provider.mk 0 1 []])]
    (Provider.mk 0 2 []) (by decide)

/-- C6: registering a sequence of providers whose implementations are
pairwise distinct per type succeeds; the resulting registry maps each
type to its providers in registration order, and `get_providers` returns
that full ordered list, whose length equals the number of providers
registered for the type. -/
theorem register_batch_order (ps : List Provider)
    (hps : ps.Pairwise fun a b =>
      a.type_ = b.type_ → a.implementation ≠ b.implementation) :
    registerMany [] ps = .ok (ps.foldl appendProvider [])
    ∧ ∀ t, get_providers (ps.foldl appendProvider []) t
        = ps.filter (fun p => decide (p.type_ = t))
    ∧ (get_providers (ps.foldl appendProvider []) t).length
        = (ps.filter fun p => decide (p.type_ = t)).length := by
  constructor
  · refine registerMany_eq_foldl ps [] ?_ hps
    intro p hp q hq
    simp [lookupList] at hq
  · intro t
    have h2 := lookupList_foldl_appendProvider ps [] t
    constructor
    · unfold get_providers
      rw [h2]
      simp [lookupList]
    · unfold get_providers
      rw [h2]
      simp [lookupList]

/-- Witness for C6: a batch with two `0`-typed providers around a
`1`-typed one lands in registration order under each key. -/
theorem register_batch_order_witness :
    registerMany []
        [Provider.mk 0 1 [], Provider.mk 1 2 [], Provider.mk 0 3 []]
      = .ok [(0, [Provider.mk 0 1 [], Provider.mk 0 3 []]),
              (1, [Provider.mk 1 2 []])]
    ∧ get_providers
        [(0, [Provider.mk 0 1 [], Provider.mk 0 3 []]),
          (1, [Provider.mk 1 2 []])] 0
      = [Provider.mk 0 1 [], Provider.mk 0 3 []] :=
  ⟨(register_batch_order
      [Provider.mk 0 1 [], Provider.mk 1 2 [], Provider.mk 0 3 []]
      (by decide)).1,
    ((register_batch_order
      [Provider.mk 0 1 [], Provider.mk 1 2 [], Provider.mk 0 3 []]
      (by decide)).2 0).1⟩

/-- C7: resources opened in a Scope in a given order are finalized in
strict reverse order of acquisition when the Scope closes; every pending
teardown is attempted — the attempted list covers every opened resource
even when finalizers raise — and the identities whose finalizers raised
are collected for reporting only after all attempts. -/
theorem scope_teardown_lifo (l : List Resource) :
    (closeScope (openAll l)).1 = (l.map Resource.rid).reverse
    ∧ (closeScope (openAll l)).1.length = l.length
    ∧ (closeScope (openAll l)).2
        = ((l.filter fun res => res.failsOnClose).map Resource.rid).reverse := by
  have h1 : openAll l = l.reverse := by
    unfold openAll
    rw [foldl_openResource]
    simp
  refine ⟨?_, ?_, ?_⟩
  · rw [h1, closeScope_attempted, List.map_reverse]
  · rw [h1, closeScope_attempted]
    simp
  · rw [h1, closeScope_raised, List.filter_reverse, List.map_reverse]

theorem resolveDeps_cons_error {r : Registry} {stack : List TypeKey}
    {t : TypeKey} {ts : List TypeKey} {e : DIError}
    (h : resolveAux r stack t = .error e) :
    resolveDeps r stack (t :: ts) = .error e := by
  rw [resolveDeps, h]

theorem resolveAux_step_error {r : Registry} {stack : List TypeKey}
    {t : TypeKey} {p : Provider} {rest : List Provider} {e : DIError}
    (hmem : t ∉ stack) (hl : lookupList r t = p :: rest)
    (hdeps : resolveDeps r (t :: stack) p.dependencies = .error e) :
    resolveAux r stack t = .error e := by
  rw [resolveAux, dif_neg hmem]
  split
  · rename_i heq
    rw [hl] at heq
    exact List.noConfusion heq
  · rename_i p2 tail heq
    rw [hl] at heq
    injection heq with h1 h2
    subst h1
    rw [hdeps]

/-- C8: a resolution chain that revisits a type already being resolved
fails with `CyclicDependencyError` naming it, rather than recursing
unboundedly: any request for a type on the in-progress stack fails that
way, a self-referential provider makes `resolve` of its type fail that
way, and so does a mutually-referential pair of providers. -/
theorem cyclic_dependency_detected :
    (∀ (r : Registry) (stack : List TypeKey) (t : TypeKey), t ∈ stack →
        resolveAux r stack t = .error (.cyclicDependency t))
    ∧ (∀ (r : Registry) (t : TypeKey) (p : Provider)
        (rest : List Provider),
        lookupList r t = p :: rest → p.dependencies = [t] →
        resolve r t = .error (.cyclicDependency t))
    ∧ (∀ (r : Registry) (a b : TypeKey) (pa pb : Provider)
        (ra rb : List Provider),
        lookupList r a = pa :: ra → lookupList r b = pb :: rb →
        pa.dependencies = [b] → pb.dependencies = [a] →
        resolve r a = .error (.cyclicDependency a)) := by
  refine ⟨resolveAux_mem_stack, ?_, ?_⟩
  · intro r t p rest hl hd
    unfold resolve
    refine resolveAux_step_error (by simp) hl ?_
    rw [hd]
    exact resolveDeps_cons_error
      (resolveAux_mem_stack r [t] t (by simp))
  · intro r a b pa pb ra rb hla hlb hda hdb
    unfold resolve
    by_cases hab : b = a
    · subst hab
      refine resolveAux_step_error (by simp) hla ?_
      rw [hda]
      exact resolveDeps_cons_error
        (resolveAux_mem_stack r [b] b (by simp))
    · have h3 : resolveAux r [a] b = .error (.cyclicDependency a) := by
        refine resolveAux_step_error (by simp [hab]) hlb ?_
        rw [hdb]
        exact resolveDeps_cons_error
          (resolveAux_mem_stack r [b, a] a (by simp))
      refine resolveAux_step_error (by simp) hla ?_
      rw [hda]
      exact resolveDeps_cons_error h3

/-- Witness for C8: a self-referential provider for key 0, and a mutual
cycle between keys 0 and 1, both fail with `CyclicDependencyError 0`. -/
theorem cyclic_dependency_detected_witness :
    resolve [(0, [Provider.mk 0 1 [0]])] 0
      = .error (.cyclicDependency 0)
    ∧ resolve [(0, [Provider.mk 0 1 [1]]), (1, [Provider.mk 1 2 [0]])] 0
      = .error (.cyclicDependency 0) :=
  ⟨cyclic_dependency_detected.2.1 [(0, [Provider.mk 0 1 [0]])] 0
      (Provider.mk 0 1 [0]) [] rfl rfl,
    cyclic_dependency_detected.2.2
      [(0, [Provider.mk 0 1 [1]]), (1, [Provider.mk 1 2 [0]])]
      0 1 (Provider.mk 0 1 [1]) (Provider.mk 1 2 [0]) [] []
      rfl rfl rfl rfl⟩

/-- C1: a generator-based Singleton provider is constructed at most once
per Container lifetime: across any number of sequential child Scopes each
resolving its type, every resolution returns the identical yielded value,
no finalizer of the provider runs when a child Scope closes, and closing
the Container runs its finalizer exactly once. -/
theorem singleton_lifecycle (t : TypeKey) (y : Nat) (n : Nat)
    (hn : 1 ≤ n) :
    (runSessions (LProvider.mk t y .singleton) emptyContainer n).1
        = List.replicate n y
    ∧ (runSessions (LProvider.mk t y .singleton) emptyContainer n).2.1 = []
    ∧ closeContainer
        (runSessions (LProvider.mk t y .singleton) emptyContainer n).2.2
        = [t] := by
  obtain ⟨m, rfl⟩ : ∃ m, n = m + 1 :=
    ⟨n - 1, (Nat.succ_pred_eq_of_pos hn).symm⟩
  have hsession : childSession (LProvider.mk t y .singleton) emptyContainer
      = (y, [], LContainer.mk (LScope.mk [(t, y)] [t])) := rfl
  have hcached :
      cacheLookup (LContainer.mk (LScope.mk [(t, y)] [t])).root.cache
          (LProvider.mk t y .singleton).type_
        = some (LProvider.mk t y .singleton).yieldValue := by
    simp [cacheLookup]
  have hrest := runSessions_cached (p := LProvider.mk t y .singleton)
    (c := LContainer.mk (LScope.mk [(t, y)] [t])) rfl hcached m
  refine ⟨?_, ?_, ?_⟩ <;>
    simp [runSessions, hsession, hrest, List.replicate_succ,
      closeContainer]

/-- Witness for C1: the test scenario — a generator Singleton yielding 42
resolved from two sequential child Scopes of one Container. -/
theorem singleton_lifecycle_witness :
    (runSessions (LProvider.mk 0 42 .singleton) emptyContainer 2).1
        = List.replicate 2 42
    ∧ (runSessions (LProvider.mk 0 42 .singleton) emptyContainer 2).2.1
        = []
    ∧ closeContainer
        (runSessions (LProvider.mk 0 42 .singleton) emptyContainer 2).2.2
        = [0] :=
  singleton_lifecycle 0 42 2 (by decide)
